import Mathlib

/-!
# smallsh: command dispatch, process launch and job table

A shallow embedding of `smallsh.c`.  Every C function that the properties
below talk about is a Lean function of the same name.  The operating system
is an explicit input: what `fork`, `waitpid`, `open`, `chdir`, `getenv` and
`execvp` answer is read from an oracle, and what the process does to the
outside world (lines printed, signals sent, files opened, ...) is returned as
a trace of `Event`s next to the new state.

Conventions
* a C string is a `String`; its size in bytes is `String.utf8ByteSize`;
* `char *` that may be `NULL` is `Option String`;
* `int` values are `Int` (no arithmetic in the program can overflow);
* `int processes[MAX_PROCESSES]` is a `List Int`, read with `getD` and written
  with `set`; the properties assume its length is `MAX_PROCESSES`;
* a store past the end of a C array whose effect the program then depends on
  (`changeDirectory` returns through the frame it overwrote, `parse_input`
  stores outside `argv`) is modelled by the `undefined` outcome (`none` in the
  parser); a `sprintf` that is followed only by `write` and `exit(1)` is
  modelled by what it makes the process do: see `sprintfThenExit`.
-/

namespace SmallSh

/-! ## Constants of the program and of the platform headers -/

/-- Source constant: `#define INPUT_LENGTH 2048`. -/
def INPUT_LENGTH : Nat := 2048

/-- Source constant: `#define MAX_ARGS 512`. -/
def MAX_ARGS : Nat := 512

/-- Source constant: `#define MAX_PROCESSES 200`. -/
def MAX_PROCESSES : Nat := 200

/-- Linux signal number of `SIGINT`. -/
def SIGINT : Nat := 2

/-- Linux signal number of `SIGTERM`. -/
def SIGTERM : Nat := 15

/-- Linux signal number of `SIGTSTP`. -/
def SIGTSTP : Nat := 20

/-- Descriptor number of standard input. -/
def STDIN_FILENO : Nat := 0

/-- Descriptor number of standard output. -/
def STDOUT_FILENO : Nat := 1

/-- Descriptor number of standard error. -/
def STDERR_FILENO : Nat := 2

/-- Linux value of the `open` flag `O_RDONLY`. -/
def O_RDONLY : Nat := 0

/-- Linux value of the `open` flag `O_WRONLY`. -/
def O_WRONLY : Nat := 1

/-- Linux value of the `open` flag `O_CREAT` (octal 0100). -/
def O_CREAT : Nat := 64

/-- Linux value of the `open` flag `O_TRUNC` (octal 01000). -/
def O_TRUNC : Nat := 512

/-- Permission bits `0640` (octal) given to `open` for an output file. -/
def MODE_0640 : Nat := 6 * 64 + 4 * 8 + 0

/-- Value of `EXIT_SUCCESS`. -/
def EXIT_SUCCESS : Int := 0

/-- Path of the null device, as written in `ioRedirection`. -/
def DEV_NULL : String := "/dev/null"

/-! ## Wait-status words (`<sys/wait.h>`, glibc definitions) -/

/-- Macro `WTERMSIG(status)`: `status & 0x7f`. -/
def WTERMSIG (status : Int) : Int := status % 128

/-- Macro `WEXITSTATUS(status)`: `(status & 0xff00) >> 8`. -/
def WEXITSTATUS (status : Int) : Int := (status / 256) % 256

/-- Macro `WIFEXITED(status)`: `WTERMSIG(status) == 0`. -/
def WIFEXITED (status : Int) : Bool := WTERMSIG status == 0

/-- Conversion of an `int` to `signed char` (two's complement, 8 bits). -/
def signedChar (x : Int) : Int :=
  if x % 256 < 128 then x % 256 else x % 256 - 256

/-- Macro `WIFSIGNALED(status)`:
`((signed char) ((status & 0x7f) + 1) >> 1) > 0`. -/
def WIFSIGNALED (status : Int) : Bool :=
  decide (0 < signedChar (status % 128 + 1) / 2)

/-- Macro `__W_EXITCODE(ret, sig)`: `(ret) << 8 | (sig)`, the status word the
kernel hands to `waitpid` (for `sig` below 256 the bitwise or is a sum). -/
def W_EXITCODE (ret sig : Int) : Int := ret * 256 + sig

/-- How a child process ended, as the kernel records it. -/
inductive Termination
  | exitedWith (code : Nat)
  | killedBy (sig : Nat) (core : Bool)
  deriving DecidableEq, Repr

/-- Exit codes are one byte; signal numbers lie in `1..126` (`0` means a
normal exit and `127` marks a stopped process). -/
def Termination.Valid : Termination → Prop
  | .exitedWith code => code < 256
  | .killedBy sig _ => 0 < sig ∧ sig < 127

/-- The status word `waitpid` stores for a termination: `__W_EXITCODE(code, 0)`
for an exit, the signal number (plus the core flag `0x80`) for a kill. -/
def Termination.encode : Termination → Int
  | .exitedWith code => W_EXITCODE code 0
  | .killedBy sig core => W_EXITCODE 0 (sig + if core then 128 else 0)

/-! ## Data model -/

/-- Source type `struct command_line`.  The array `argv` has `MAX_ARGS + 1`
entries, `none` being the `NULL` pointer that `calloc` leaves there. -/
structure command_line where
  argv : List (Option String)
  argc : Nat
  input_file : Option String
  output_file : Option String
  is_bg : Bool
  deriving DecidableEq, Repr

/-- The zeroed structure returned by `calloc(1, sizeof(struct command_line))`. -/
def command_line.calloc : command_line :=
  { argv := List.replicate (MAX_ARGS + 1) none
    argc := 0
    input_file := none
    output_file := none
    is_bg := false }

/-- The variables of the shell process: the array `processes` and the variable
`exitStatus` of `main`, and the global `foregroundState`. -/
structure ShellState where
  processes : List Int
  exitStatus : Int
  foregroundState : Int
  deriving DecidableEq, Repr

/-- State of `main` before the first cycle: `processes = {0}`,
`exitStatus = 0`, `foregroundState = 0`. -/
def ShellState.initial : ShellState :=
  { processes := List.replicate MAX_PROCESSES 0
    exitStatus := 0
    foregroundState := 0 }

/-- Signal dispositions that occur in the program. -/
inductive Handler
  | SIG_DFL
  | SIG_IGN
  | handle_SIGTSTP
  deriving DecidableEq, Repr

/-- What a standard descriptor of the child refers to: the stream the shell
itself has on that descriptor, or a file opened by the child. -/
inductive FdTarget
  | inherited (fd : Nat)
  | file (path : String) (flags : Nat) (mode : Option Nat)
  deriving DecidableEq, Repr

/-- The part of a forked child that the program configures before `execvp`. -/
structure ChildState where
  sigint : Handler
  sigtstp : Handler
  stdin : FdTarget
  stdout : FdTarget
  deriving DecidableEq, Repr

/-- A child right after `fork`: it has the dispositions installed by `main`
and shares the three standard streams of the shell. -/
def ChildState.afterFork : ChildState :=
  { sigint := Handler.SIG_IGN
    sigtstp := Handler.handle_SIGTSTP
    stdin := FdTarget.inherited STDIN_FILENO
    stdout := FdTarget.inherited STDOUT_FILENO }

/-- Effects of the process on the outside world, in program order. -/
inductive Event
  | printf (format : String) (args : List Int)
  | write (fd : Nat) (buf : String)
  | perror (s : String)
  | kill (pid : Int) (sig : Nat)
  | fork (ret : Int)
  | waitpid (pid : Int) (options : Int) (status : Int)
  | chdir (path : Option String) (ok : Bool)
  | sigaction (signum : Nat) (handler : Handler)
  | openFile (path : String) (flags : Nat) (mode : Option Nat) (ok : Bool)
  | execvp (file : String) (argv : List String) (ok : Bool)
  deriving DecidableEq, Repr

/-- How a piece of code ends: it returns to its caller, the process calls
`exit` (or `main` returns), the process image is replaced by `execvp`, or the
behaviour is undefined (a write outside a C array, a `NULL` dereference). -/
inductive Outcome (σ : Type)
  | returns (s : σ) (trace : List Event)
  | exited (code : Int) (s : σ) (trace : List Event)
  | execed (s : σ) (trace : List Event)
  | undefined (trace : List Event)
  deriving DecidableEq, Repr

/-- Sequencing of two pieces of code. -/
def Outcome.andThen {σ : Type} (o : Outcome σ) (k : σ → Outcome σ) : Outcome σ :=
  match o with
  | .returns s t =>
    match k s with
    | .returns s2 t2 => .returns s2 (t ++ t2)
    | .exited c s2 t2 => .exited c s2 (t ++ t2)
    | .execed s2 t2 => .execed s2 (t ++ t2)
    | .undefined t2 => .undefined (t ++ t2)
  | other => other

/-- The answers of the operating system during one dispatch. -/
structure Env where
  /-- Value of `getenv("HOME")`. -/
  home : Option String
  /-- Whether `chdir(path)` returns 0. -/
  chdirOk : Option String → Bool
  /-- Value returned by `fork()` in the process under consideration. -/
  forkRet : Int
  /-- Status word stored by the blocking `waitpid(spwanPID, &status, 0)`. -/
  waitStatus : Int
  /-- Whether `open(path, flags, ...)` succeeds. -/
  openOk : String → Nat → Bool
  /-- Whether `execvp(file, argv)` succeeds. -/
  execOk : String → Bool

/-- Text produced by a `printf` whose only conversions are `%d`. -/
def formatD : List Char → List Int → List Char
  | '%' :: 'd' :: rest, a :: as => (toString a).data ++ formatD rest as
  | c :: rest, as => c :: formatD rest as
  | [], _ => []

/-- The text a trace puts on standard output through `printf`. -/
def render : Event → String
  | .printf format args => String.mk (formatD format.data args)
  | _ => ""

/-- Result of `sprintf(errorMessage, ...)` into `char errorMessage[256]` in a
function that returns afterwards (`changeDirectory`): the formatted text when
it fits with its terminating NUL, `none` when the call writes past the end of
the array, over the frame the function has to return through. -/
def sprintf256 (formatted : String) : Option String :=
  if formatted.utf8ByteSize + 1 ≤ 256 then some formatted else none

/-- The sequence `sprintf(errorMessage, ...)`,
`write(STDERR_FILENO, errorMessage, strlen(errorMessage))`, `exit(1)` that ends
the child in `ioRedirection` and after a failed `execvp`.  `sprintf` lays the
formatted text out contiguously from the start of `errorMessage`, so `strlen`
and `write` see all of it, also when it is longer than the 256 bytes of the
array; the bytes beyond the array fall in stack frames that are not used
again, since the code does not return.  The child therefore writes the whole
text and ends with status 1, after the events `before`. -/
def sprintfThenExit {σ : Type} (formatted : String) (s : σ) (before : List Event) :
    Outcome σ :=
  Outcome.exited 1 s (before ++ [Event.write STDERR_FILENO formatted])

/-- The first `n` bytes of a string literal in memory, terminating NUL
included: what `write(fd, literal, n)` sends. -/
def literalBytes (literal : String) (n : Nat) : String :=
  String.mk ((literal.data ++ [Char.ofNat 0]).take n)

/-! ## `parse_input` -/

/-- Library call `fgets(input, size, stdin)`: at most `size - 1` characters, up
to and including the first newline. -/
def fgetsChars : Nat → List Char → List Char
  | 0, _ => []
  | _ + 1, [] => []
  | n + 1, c :: cs => if c = '\n' then [c] else c :: fgetsChars n cs

/-- Library call `fgets`: `none` (a `NULL` result, buffer untouched) at end of
file. -/
def fgets (size : Nat) (stdin : List Char) : Option (List Char) :=
  if stdin.isEmpty then none else some (fgetsChars (size - 1) stdin)

/-- Delimiter set `" \n"` of the `strtok` calls. -/
def isDelim (c : Char) : Bool := c == ' ' || c == '\n'

/-- All tokens that successive `strtok(..., " \n")` calls return: maximal runs
of non-delimiter characters (`cur` is the run being read, reversed). -/
def strtokAll : List Char → List Char → List String
  | [], cur => if cur.isEmpty then [] else [String.mk cur.reverse]
  | c :: cs, cur =>
    if isDelim c then
      if cur.isEmpty then strtokAll cs [] else String.mk cur.reverse :: strtokAll cs []
    else strtokAll cs (c :: cur)

/-- The `while(token)` loop of `parse_input`, run over the tokens still to
come.  `none` is undefined behaviour: `strdup(NULL)` after a final `<` or `>`,
or a store to `argv[argc]` outside the array. -/
def parseTokens : List String → command_line → Option command_line
  | [], cmd => some cmd
  | token :: rest, cmd =>
    if token = "<" then
      match rest with
      | [] => none
      | file :: rest2 => parseTokens rest2 { cmd with input_file := some file }
    else if token = ">" then
      match rest with
      | [] => none
      | file :: rest2 => parseTokens rest2 { cmd with output_file := some file }
    else if token = "&" then
      parseTokens rest { cmd with is_bg := true }
    else if cmd.argc < MAX_ARGS + 1 then
      parseTokens rest
        { cmd with argv := cmd.argv.set cmd.argc (some token), argc := cmd.argc + 1 }
    else none

/-- Source function `parse_input`, as a function of the characters waiting on
standard input (the prompt it prints is left out). -/
def parse_input (stdin : List Char) : Option command_line :=
  match fgets INPUT_LENGTH stdin with
  | none => none
  | some input =>
    if input.head? = some '\n' ∨ input.head? = some '#' then
      some { command_line.calloc with argc := 0 }
    else parseTokens (strtokAll input []) command_line.calloc

/-! ## Signal handler and built-in commands -/

/-- Source function `handle_SIGTSTP`: the new shell state and what was written.
The byte counts 51 and 31 are those of the source; each is one more than the
length of its literal, so the terminating NUL is sent too. -/
def handle_SIGTSTP (st : ShellState) : ShellState × List Event :=
  if st.foregroundState = 0 then
    ({ st with foregroundState := 1 },
      [Event.write STDOUT_FILENO
        (literalBytes "\nEntering foreground-only mode (& is now ignored)\n" 51)])
  else
    ({ st with foregroundState := 0 },
      [Event.write STDOUT_FILENO (literalBytes "\nExiting foreground-only mode\n" 31)])

/-- Source function `changeDirectory`. -/
def changeDirectory (cmd : command_line) (st : ShellState) (env : Env) :
    Outcome ShellState :=
  match cmd.argv.getD 1 none with
  | none => Outcome.returns st [Event.chdir env.home (env.chdirOk env.home)]
  | some path =>
    if env.chdirOk (some path) then Outcome.returns st [Event.chdir (some path) true]
    else
      match sprintf256 (path ++ ": no such file or directory\n") with
      | some errorMessage =>
        Outcome.returns st
          [Event.chdir (some path) false, Event.write STDERR_FILENO errorMessage]
      | none => Outcome.undefined [Event.chdir (some path) false]

/-- Source function `statusCommand`. -/
def statusCommand (exitStatus : Int) : List Event :=
  if WIFEXITED exitStatus then
    [Event.printf "exit value %d\n" [WEXITSTATUS exitStatus]]
  else if WIFSIGNALED exitStatus then
    [Event.printf "terminated by signal %d\n" [WTERMSIG exitStatus]]
  else []

/-- The loop of `exitCommand` from index `i`, with `n` iterations left. -/
def exitLoop : Nat → Nat → List Int → List Event
  | 0, _, _ => []
  | n + 1, i, processes =>
    (if processes.getD i 0 ≠ 0 then [Event.kill (processes.getD i 0) SIGTERM] else [])
      ++ exitLoop n (i + 1) processes

/-- Source function `exitCommand`. -/
def exitCommand (processes : List Int) : List Event :=
  exitLoop MAX_PROCESSES 0 processes

/-! ## Child-side configuration -/

/-- First half of `ioRedirection` (standard input).  `open` is expected to
return a descriptor other than 0, 1, 2, so `dup2` followed by `close` leaves
the standard descriptor on the opened file; when `open` of the null device
fails, `dup2(-1, ...)` fails too and the descriptor is left as it was. -/
def ioRedirection_input (cmd : command_line) (bgProcess : Int) (env : Env)
    (c : ChildState) : Outcome ChildState :=
  match cmd.input_file with
  | some path =>
    if env.openOk path O_RDONLY then
      Outcome.returns { c with stdin := FdTarget.file path O_RDONLY none }
        [Event.openFile path O_RDONLY none true]
    else
      sprintfThenExit ("cannot open " ++ path ++ " for input\n") c
        [Event.openFile path O_RDONLY none false]
  | none =>
    if bgProcess ≠ 0 then
      if env.openOk DEV_NULL O_RDONLY then
        Outcome.returns { c with stdin := FdTarget.file DEV_NULL O_RDONLY none }
          [Event.openFile DEV_NULL O_RDONLY none true]
      else Outcome.returns c [Event.openFile DEV_NULL O_RDONLY none false]
    else Outcome.returns c []

/-- Second half of `ioRedirection` (standard output). -/
def ioRedirection_output (cmd : command_line) (bgProcess : Int) (env : Env)
    (c : ChildState) : Outcome ChildState :=
  match cmd.output_file with
  | some path =>
    if env.openOk path (O_WRONLY ||| O_CREAT ||| O_TRUNC) then
      Outcome.returns
        { c with stdout := FdTarget.file path (O_WRONLY ||| O_CREAT ||| O_TRUNC)
                   (some MODE_0640) }
        [Event.openFile path (O_WRONLY ||| O_CREAT ||| O_TRUNC) (some MODE_0640) true]
    else
      sprintfThenExit ("cannot open " ++ path ++ " for output\n") c
        [Event.openFile path (O_WRONLY ||| O_CREAT ||| O_TRUNC) (some MODE_0640) false]
  | none =>
    if bgProcess ≠ 0 then
      if env.openOk DEV_NULL O_WRONLY then
        Outcome.returns { c with stdout := FdTarget.file DEV_NULL O_WRONLY none }
          [Event.openFile DEV_NULL O_WRONLY none true]
      else Outcome.returns c [Event.openFile DEV_NULL O_WRONLY none false]
    else Outcome.returns c []

/-- Source function `ioRedirection`. -/
def ioRedirection (cmd : command_line) (bgProcess : Int) (env : Env)
    (c : ChildState) : Outcome ChildState :=
  (ioRedirection_input cmd bgProcess env c).andThen (ioRedirection_output cmd bgProcess env)

/-- The argument vector `execvp` reads from `argv`: the entries before the
first `NULL`; `none` when the array holds no `NULL` at all. -/
def argvUntilNull : List (Option String) → Option (List String)
  | [] => none
  | none :: _ => some []
  | some a :: rest => (argvUntilNull rest).map (fun as => a :: as)

/-- The `execvp` call of the child and the error path behind it. -/
def execStep (cmd : command_line) (env : Env) (c : ChildState) : Outcome ChildState :=
  match cmd.argv.getD 0 none, argvUntilNull cmd.argv with
  | some file, some args =>
    if env.execOk file then Outcome.execed c [Event.execvp file args true]
    else
      sprintfThenExit (file ++ ": no such file or directory\n") c
        [Event.execvp file args false]
  | _, _ => Outcome.undefined []

/-- The `case 0` branch of `executeCommand`: what the forked child does. -/
def childBranch (cmd : command_line) (bgProcess : Int) (env : Env) : Outcome ChildState :=
  let SIGINT_handler := if bgProcess = 0 then Handler.SIG_DFL else Handler.SIG_IGN
  let c : ChildState :=
    { ChildState.afterFork with sigint := SIGINT_handler, sigtstp := Handler.SIG_IGN }
  (Outcome.returns c
      [Event.fork 0, Event.sigaction SIGINT SIGINT_handler,
        Event.sigaction SIGTSTP Handler.SIG_IGN]).andThen
    (fun c1 => (ioRedirection cmd bgProcess env c1).andThen (execStep cmd env))

/-! ## Job table -/

/-- The lines 148-155 of `checkBackgroundProcesses`: what is printed for a
process that `waitpid` returned, by the kind of its status word. -/
def completionReport (pid status : Int) : List Event :=
  if WIFEXITED status then
    [Event.printf "background pid %d is done: exit value %d\n" [pid, WEXITSTATUS status]]
  else if WIFSIGNALED status then
    [Event.printf "background pid %d is done: terminated by signal %d\n"
      [pid, WTERMSIG status]]
  else []

/-- The loop of `checkBackgroundProcesses` from index `i`, with `n` iterations
left.  The result of `waitpid(processes[i], &status, WNOHANG)` is read from the
oracle as the pair (return value, status word). -/
def checkLoop (waitpid : Nat → Int × Int) :
    Nat → Nat → List Int → List Event → List Int × List Event
  | 0, _, processes, out => (processes, out)
  | n + 1, i, processes, out =>
    if processes.getD i 0 ≠ 0 then
      let pid := (waitpid i).1
      let status := (waitpid i).2
      if 0 < pid then
        checkLoop waitpid n (i + 1) (processes.set i 0) (out ++ completionReport pid status)
      else checkLoop waitpid n (i + 1) processes out
    else checkLoop waitpid n (i + 1) processes out

/-- Source function `checkBackgroundProcesses`: the table afterwards and the
lines printed. -/
def checkBackgroundProcesses (waitpid : Nat → Int × Int) (processes : List Int) :
    List Int × List Event :=
  checkLoop waitpid MAX_PROCESSES 0 processes []

/-- The registration loop of `executeCommand` (with its `break`) from index `i`,
with `n` iterations left. -/
def registerLoop (spwanPID : Int) : Nat → Nat → List Int → List Int
  | 0, _, processes => processes
  | n + 1, i, processes =>
    if processes.getD i 0 = 0 then processes.set i spwanPID
    else registerLoop spwanPID n (i + 1) processes

/-! ## Launch and dispatch -/

/-- Which process the code is running in after `fork`. -/
inductive ExecResult
  | parent (o : Outcome ShellState)
  | child (o : Outcome ChildState)
  deriving DecidableEq, Repr

/-- Source function `executeCommand`. -/
def executeCommand (cmd : command_line) (st : ShellState) (env : Env) : ExecResult :=
  let bgProcess : Int := if cmd.is_bg = true ∧ st.foregroundState = 0 then 1 else 0
  let spwanPID := env.forkRet
  if spwanPID = -1 then
    ExecResult.parent
      (Outcome.exited 1 st [Event.fork spwanPID, Event.perror "fork() failed\n"])
  else if spwanPID = 0 then ExecResult.child (childBranch cmd bgProcess env)
  else if bgProcess ≠ 0 then
    ExecResult.parent
      (Outcome.returns
        { st with processes := registerLoop spwanPID MAX_PROCESSES 0 st.processes }
        [Event.fork spwanPID, Event.printf "background pid is %d\n" [spwanPID]])
  else
    let status := env.waitStatus
    ExecResult.parent
      (Outcome.returns { st with exitStatus := status }
        ([Event.fork spwanPID, Event.waitpid spwanPID 0 status] ++
          if WIFSIGNALED status then
            [Event.printf "terminated by signal %d\n" [WTERMSIG status]]
          else []))

/-- The body of the loop of `main` after `parse_input`: the dispatch of one
command.  Leaving the loop through `break` ends `main` with `EXIT_SUCCESS`. -/
def dispatch (cmd : command_line) (st : ShellState) (env : Env) : ExecResult :=
  if cmd.argc = 0 then ExecResult.parent (Outcome.returns st [])
  else
    match cmd.argv.getD 0 none with
    | none => ExecResult.parent (Outcome.undefined [])
    | some name =>
      if name = "exit" then
        ExecResult.parent (Outcome.exited EXIT_SUCCESS st (exitCommand st.processes))
      else if name = "cd" then ExecResult.parent (changeDirectory cmd st env)
      else if name = "status" then
        ExecResult.parent (Outcome.returns st (statusCommand st.exitStatus))
      else executeCommand cmd st env

/-- Status word the shell reads for a child in the foreground: that of
`exit(code)` when the child ends before `execvp` succeeds, the program's own
(`programStatus`) otherwise; `none` when the child's behaviour is undefined
(`argv` without a command name or without its closing `NULL`). -/
def childWaitStatus (programStatus : Int) : Outcome ChildState → Option Int
  | .exited code _ _ => some (W_EXITCODE (code % 256) 0)
  | .execed _ _ => some programStatus
  | .returns _ _ => none
  | .undefined _ => none

/-- One external command seen from the shell: `fork` answers `spwanPID` in the
parent while the child runs `childBranch`, and a blocking `waitpid` reads the
status of that child. -/
def launch (cmd : command_line) (st : ShellState) (env : Env) (programStatus : Int) :
    Option ExecResult :=
  let bgProcess : Int := if cmd.is_bg = true ∧ st.foregroundState = 0 then 1 else 0
  match childWaitStatus programStatus (childBranch cmd bgProcess env) with
  | none => none
  | some status => some (executeCommand cmd st { env with waitStatus := status })


/-! ## Inputs used to exercise the program -/

/-- The line `a a ... a` of `n` one-letter words, each followed by a blank,
ended by a newline: `2 * n + 1` characters. -/
def manyArgs (n : Nat) : List Char :=
  (List.replicate n ['a', ' ']).flatten ++ ['\n']

/-- A file name of `n` letters `a`. -/
def longName (n : Nat) : String := String.mk (List.replicate n 'a')

/-- The command `argv[0] argv[1]` with nothing else set. -/
def twoWords (name arg : String) : command_line :=
  { command_line.calloc with
    argv := (command_line.calloc.argv.set 0 (some name)).set 1 (some arg)
    argc := 2 }

/-- An operating system in which no `chdir`, `open` or `execvp` succeeds. -/
def failingEnv (forkRet : Int) : Env :=
  { home := none, chdirOk := fun _ => false, forkRet := forkRet, waitStatus := 0,
    openOk := fun _ _ => false, execOk := fun _ => false }

/-- The command `cat < path`. -/
def catFrom (path : String) : command_line :=
  { command_line.calloc with
    argv := command_line.calloc.argv.set 0 (some "cat")
    argc := 1
    input_file := some path }

/-! ## Wait-status words -/

theorem WIFEXITED_exitedWith (code : Nat) : WIFEXITED (W_EXITCODE code 0) = true := by
  simp only [WIFEXITED, WTERMSIG, W_EXITCODE, beq_iff_eq]
  omega

theorem WEXITSTATUS_exitedWith (code : Nat) (h : code < 256) :
    WEXITSTATUS (W_EXITCODE code 0) = code := by
  simp only [WEXITSTATUS, W_EXITCODE]
  omega

theorem WTERMSIG_killedBy (sig : Nat) (core : Bool) (h : sig < 128) :
    WTERMSIG (W_EXITCODE 0 (sig + if core then 128 else 0)) = sig := by
  cases core <;> simp only [WTERMSIG, W_EXITCODE] <;> simp <;> omega

theorem WIFEXITED_killedBy (sig : Nat) (core : Bool) (h0 : 0 < sig) (h : sig < 128) :
    WIFEXITED (W_EXITCODE 0 (sig + if core then 128 else 0)) = false := by
  have := WTERMSIG_killedBy sig core h
  simp only [WIFEXITED, this]
  simp
  omega

theorem WIFSIGNALED_killedBy (sig : Nat) (core : Bool) (h0 : 0 < sig) (h : sig < 127) :
    WIFSIGNALED (W_EXITCODE 0 (sig + if core then 128 else 0)) = true := by
  have ht := WTERMSIG_killedBy sig core (by omega)
  simp only [WTERMSIG] at ht
  simp only [WIFSIGNALED, ht, signedChar, decide_eq_true_eq]
  split <;> omega

/-- Every status word is of at most one kind. -/
theorem not_exited_and_signaled (status : Int) :
    ¬ (WIFEXITED status = true ∧ WIFSIGNALED status = true) := by
  simp only [WIFEXITED, WTERMSIG, WIFSIGNALED, signedChar, beq_iff_eq, decide_eq_true_eq]
  rintro ⟨h1, h2⟩
  rw [h1] at h2
  simp at h2

/-! ## `statusCommand` -/

/-- C4: for the status word of every termination, `statusCommand` prints exactly
one line: `exit value N` for a normal exit with code `N`, `terminated by signal
S` for a kill by signal `S`.  The initial status 0 gives `exit value 0` and the
status of a child that called `exit(1)` gives `exit value 1`. -/
theorem statusCommand_prints_one_line (t : Termination) (h : t.Valid) :
    statusCommand t.encode =
        [match t with
          | .exitedWith code => Event.printf "exit value %d\n" [(code : Int)]
          | .killedBy sig _ => Event.printf "terminated by signal %d\n" [(sig : Int)]]
    ∧ (statusCommand t.encode).map render =
        [match t with
          | .exitedWith code => "exit value " ++ toString code ++ "\n"
          | .killedBy sig _ => "terminated by signal " ++ toString sig ++ "\n"]
    ∧ (statusCommand ShellState.initial.exitStatus).map render = ["exit value 0\n"]
    ∧ (statusCommand (Termination.exitedWith 1).encode).map render = ["exit value 1\n"] := by
  have key : statusCommand t.encode =
        [match t with
          | .exitedWith code => Event.printf "exit value %d\n" [(code : Int)]
          | .killedBy sig _ => Event.printf "terminated by signal %d\n" [(sig : Int)]] := by
    cases t with
    | exitedWith code =>
      simp only [Termination.Valid] at h
      simp only [statusCommand, Termination.encode, WIFEXITED_exitedWith,
        WEXITSTATUS_exitedWith code h, if_true]
    | killedBy sig core =>
      obtain ⟨h0, h1⟩ := h
      have e1 := WIFEXITED_killedBy sig core h0 (by omega)
      have e2 := WIFSIGNALED_killedBy sig core h0 h1
      have e3 := WTERMSIG_killedBy sig core (by omega)
      simp only [Termination.encode, Nat.cast_add] at e1 e2 e3 ⊢
      simp [statusCommand, e1, e2, e3]
  refine ⟨key, ?_, by decide, by decide⟩
  rw [key]
  cases t <;> rfl

/-- Witness for C4: a normal exit with code 3. -/
theorem statusCommand_prints_one_line_witness :
    (Termination.exitedWith 3).Valid ∧
      statusCommand (Termination.exitedWith 3).encode =
        [Event.printf "exit value %d\n" [3]] :=
  ⟨by simp [Termination.Valid],
    (statusCommand_prints_one_line (Termination.exitedWith 3)
      (by simp [Termination.Valid])).1⟩

/-! ## `exitCommand` -/

theorem exitLoop_eq (processes : List Int) : ∀ (n i : Nat),
    exitLoop n i processes =
      (((processes.drop i).take n).filter (fun p => p ≠ 0)).map
        (fun p => Event.kill p SIGTERM) := by
  intro n
  induction n with
  | zero => intro i; simp [exitLoop]
  | succ n ih =>
    intro i
    rw [exitLoop, ih (i + 1)]
    by_cases hi : i < processes.length
    · have hd : processes.drop i = processes[i] :: processes.drop (i + 1) :=
        List.drop_eq_getElem_cons hi
      have hg : processes.getD i 0 = processes[i] := by
        simp [List.getD_eq_getElem?_getD, List.getElem?_eq_getElem hi]
      rw [hd, hg, List.take_succ_cons]
      by_cases hz : processes[i] = 0
      · simp [hz]
      · simp [hz]
    · have hlen : processes.length ≤ i := Nat.le_of_not_lt hi
      have hg : processes.getD i 0 = 0 := by
        simp [List.getD_eq_getElem?_getD, List.getElem?_eq_none hlen]
      have h1 : processes.drop i = [] := List.drop_eq_nil_of_le hlen
      have h2 : processes.drop (i + 1) = [] := List.drop_eq_nil_of_le (by omega)
      rw [hg, h1, h2]
      simp

theorem exitCommand_eq (processes : List Int) (hlen : processes.length = MAX_PROCESSES) :
    exitCommand processes =
      (processes.filter (fun p => p ≠ 0)).map (fun p => Event.kill p SIGTERM) := by
  rw [exitCommand, exitLoop_eq, List.drop_zero, List.take_of_length_le (by omega)]

/-- C6: the `exit` built-in sends `SIGTERM` once for every occupied slot of the
job table, in slot order, and nothing else: every occupied slot has its signal,
every signal sent is for an occupied slot, and there are as many signals as
occupied slots.  The table (like the rest of the shell state) is unchanged when
the shell ends, and the shell ends with status 0. -/
theorem exit_builtin_signals_every_job (cmd : command_line) (st : ShellState) (env : Env)
    (hlen : st.processes.length = MAX_PROCESSES) (hargc : cmd.argc ≠ 0)
    (hname : cmd.argv.getD 0 none = some "exit") :
    ∃ trace,
      dispatch cmd st env = ExecResult.parent (Outcome.exited 0 st trace)
      ∧ trace = (st.processes.filter (fun p => p ≠ 0)).map (fun p => Event.kill p SIGTERM)
      ∧ (∀ i, i < MAX_PROCESSES → st.processes.getD i 0 ≠ 0 →
          Event.kill (st.processes.getD i 0) SIGTERM ∈ trace)
      ∧ (∀ e ∈ trace, ∃ i, i < MAX_PROCESSES ∧ st.processes.getD i 0 ≠ 0 ∧
          e = Event.kill (st.processes.getD i 0) SIGTERM)
      ∧ trace.length = (st.processes.filter (fun p => p ≠ 0)).length := by
  refine ⟨(st.processes.filter (fun p => p ≠ 0)).map (fun p => Event.kill p SIGTERM),
    ?_, rfl, ?_, ?_, by rw [List.length_map]⟩
  · rw [dispatch, if_neg hargc, hname]
    simp only [if_true, exitCommand_eq _ hlen, EXIT_SUCCESS]
  · intro i hi hocc
    have hmem : st.processes.getD i 0 ∈ st.processes := by
      rw [List.getD_eq_getElem?_getD, List.getElem?_eq_getElem (by omega)]
      exact List.getElem_mem _
    exact List.mem_map.mpr ⟨_, List.mem_filter.mpr ⟨hmem, by simpa using hocc⟩, rfl⟩
  · intro e he
    obtain ⟨p, hp, hpe⟩ := List.mem_map.mp he
    obtain ⟨hpm, hpz⟩ := List.mem_filter.mp hp
    obtain ⟨i, hi, hip⟩ := List.mem_iff_getElem.mp hpm
    have hg : st.processes.getD i 0 = p := by
      rw [List.getD_eq_getElem?_getD, List.getElem?_eq_getElem hi, hip]
      rfl
    exact ⟨i, by omega, by rw [hg]; simpa using hpz, by rw [hg, hpe]⟩

/-- Witness for C6: `exit` typed while jobs 41 and 42 run in slots 0 and 1. -/
theorem exit_builtin_signals_every_job_witness :
    ∃ trace,
      dispatch (twoWords "exit" "now")
          { ShellState.initial with processes := (ShellState.initial.processes.set 0 41).set 1 42 }
          (failingEnv 7) =
        ExecResult.parent (Outcome.exited 0
          { ShellState.initial with processes := (ShellState.initial.processes.set 0 41).set 1 42 }
          trace)
      ∧ trace = [Event.kill 41 SIGTERM, Event.kill 42 SIGTERM] :=
  (exit_builtin_signals_every_job (twoWords "exit" "now")
    { ShellState.initial with processes := (ShellState.initial.processes.set 0 41).set 1 42 }
    (failingEnv 7) (by simp [ShellState.initial]) (by decide) rfl).imp
    (fun _ h => ⟨h.1, h.2.1.trans (by decide)⟩)

/-! ## `handle_SIGTSTP` -/

/-- C9: one run of `handle_SIGTSTP` flips `foregroundState` (0 to 1, anything
else to 0), writes exactly one of the two fixed messages, the `Entering` one
exactly when the flag becomes 1, and changes nothing else; two runs from a flag
in {0, 1} restore the state; a command with `is_bg` set that runs in the
foreground while the flag is 1 runs in the background after the next signal. -/
theorem handle_SIGTSTP_toggles (st : ShellState) :
    (handle_SIGTSTP st).1 =
        { st with foregroundState := if st.foregroundState = 0 then 1 else 0 }
    ∧ (handle_SIGTSTP st).2 =
        [Event.write STDOUT_FILENO
          (if (handle_SIGTSTP st).1.foregroundState = 1
            then "\nEntering foreground-only mode (& is now ignored)\n\x00"
            else "\nExiting foreground-only mode\n\x00")]
    ∧ ((st.foregroundState = 0 ∨ st.foregroundState = 1) →
        (handle_SIGTSTP (handle_SIGTSTP st).1).1 = st)
    ∧ (∀ (cmd : command_line) (env : Env), cmd.is_bg = true → st.foregroundState = 1 →
        0 < env.forkRet →
        executeCommand cmd st env =
            ExecResult.parent (Outcome.returns { st with exitStatus := env.waitStatus }
              ([Event.fork env.forkRet, Event.waitpid env.forkRet 0 env.waitStatus] ++
                if WIFSIGNALED env.waitStatus then
                  [Event.printf "terminated by signal %d\n" [WTERMSIG env.waitStatus]]
                else []))
        ∧ executeCommand cmd (handle_SIGTSTP { st with exitStatus := env.waitStatus }).1 env =
            ExecResult.parent (Outcome.returns
              { processes := registerLoop env.forkRet MAX_PROCESSES 0 st.processes
                exitStatus := env.waitStatus
                foregroundState := 0 }
              [Event.fork env.forkRet,
                Event.printf "background pid is %d\n" [env.forkRet]])) := by
  have hE : literalBytes "\nEntering foreground-only mode (& is now ignored)\n" 51 =
      "\nEntering foreground-only mode (& is now ignored)\n\x00" := by decide
  have hX : literalBytes "\nExiting foreground-only mode\n" 31 =
      "\nExiting foreground-only mode\n\x00" := by decide
  refine ⟨?_, ?_, ?_, ?_⟩
  · by_cases h : st.foregroundState = 0 <;> simp [handle_SIGTSTP, h]
  · by_cases h : st.foregroundState = 0 <;> simp [handle_SIGTSTP, h, hE, hX]
  · rintro (h | h)
    · cases st
      simp only at h
      simp [handle_SIGTSTP, h]
    · cases st
      simp only at h
      simp [handle_SIGTSTP, h]
  · intro cmd env hbg hfg hpid
    have h1 : env.forkRet ≠ -1 := by omega
    have h0 : env.forkRet ≠ 0 := by omega
    constructor
    · simp [executeCommand, hfg, h1, h0]
    · simp [executeCommand, handle_SIGTSTP, hfg, hbg, h1, h0]

/-- Witness for C9: two signals sent to the shell in its initial state. -/
theorem handle_SIGTSTP_toggles_witness :
    (ShellState.initial.foregroundState = 0 ∨ ShellState.initial.foregroundState = 1) ∧
      (handle_SIGTSTP (handle_SIGTSTP ShellState.initial).1).1 = ShellState.initial :=
  ⟨Or.inl rfl, (handle_SIGTSTP_toggles ShellState.initial).2.2.1 (Or.inl rfl)⟩

/-! ## Registration of a background job -/

theorem registerLoop_spec (pid : Int) : ∀ (n i : Nat) (processes : List Int),
    (∃ k, i ≤ k ∧ k < i + n ∧ processes.getD k 0 = 0 ∧
        (∀ j, i ≤ j → j < k → processes.getD j 0 ≠ 0) ∧
        registerLoop pid n i processes = processes.set k pid)
    ∨ ((∀ j, i ≤ j → j < i + n → processes.getD j 0 ≠ 0) ∧
        registerLoop pid n i processes = processes) := by
  intro n
  induction n with
  | zero =>
    intro i processes
    right
    exact ⟨fun j h1 h2 => absurd h2 (by omega), rfl⟩
  | succ n ih =>
    intro i processes
    by_cases h0 : processes.getD i 0 = 0
    · left
      refine ⟨i, le_refl i, by omega, h0, fun j h1 h2 => absurd h2 (by omega), ?_⟩
      rw [registerLoop, if_pos h0]
    · rw [registerLoop, if_neg h0]
      rcases ih (i + 1) processes with ⟨k, hk1, hk2, hk3, hk4, hk5⟩ | ⟨hall, heq⟩
      · left
        refine ⟨k, by omega, by omega, hk3, ?_, hk5⟩
        intro j hj1 hj2
        by_cases hji : j = i
        · rw [hji]; exact h0
        · exact hk4 j (by omega) hj2
      · right
        refine ⟨?_, heq⟩
        intro j hj1 hj2
        by_cases hji : j = i
        · rw [hji]; exact h0
        · exact hall j (by omega) (by omega)

theorem registerLoop_length (pid : Int) (n i : Nat) (processes : List Int) :
    (registerLoop pid n i processes).length = processes.length := by
  rcases registerLoop_spec pid n i processes with ⟨k, _, _, _, _, h⟩ | ⟨_, h⟩
  · rw [h, List.length_set]
  · rw [h]

/-- C2: when a background child with pid `env.forkRet` has been spawned, the
lowest-index empty slot of the 200-slot job table receives the pid and every
other slot keeps its value; when no slot is empty the shell state is exactly
what it was.  In both cases the child has been forked and announced. -/
theorem background_launch_uses_first_empty_slot (cmd : command_line) (st : ShellState)
    (env : Env) (hlen : st.processes.length = MAX_PROCESSES) (hbg : cmd.is_bg = true)
    (hfg : st.foregroundState = 0) (hpid : 0 < env.forkRet) :
    ∃ st2 : ShellState,
      executeCommand cmd st env =
        ExecResult.parent (Outcome.returns st2
          [Event.fork env.forkRet, Event.printf "background pid is %d\n" [env.forkRet]])
      ∧ st2.processes.length = MAX_PROCESSES
      ∧ st2.exitStatus = st.exitStatus ∧ st2.foregroundState = st.foregroundState
      ∧ ((∃ k, k < MAX_PROCESSES ∧ st.processes.getD k 0 = 0) →
          ∃ k, k < MAX_PROCESSES ∧ st.processes.getD k 0 = 0 ∧
            (∀ j, j < k → st.processes.getD j 0 ≠ 0) ∧
            st2.processes.getD k 0 = env.forkRet ∧
            (∀ j, j ≠ k → st2.processes.getD j 0 = st.processes.getD j 0) ∧
            st2.processes = st.processes.set k env.forkRet)
      ∧ ((∀ k, k < MAX_PROCESSES → st.processes.getD k 0 ≠ 0) → st2 = st) := by
  have h1 : env.forkRet ≠ -1 := by omega
  have h0 : env.forkRet ≠ 0 := by omega
  refine ⟨{ st with processes := registerLoop env.forkRet MAX_PROCESSES 0 st.processes },
    ?_, ?_, rfl, rfl, ?_, ?_⟩
  · simp [executeCommand, hfg, hbg, h1, h0]
  · simp only [registerLoop_length, hlen]
  · rintro ⟨k0, hk0, hz0⟩
    rcases registerLoop_spec env.forkRet MAX_PROCESSES 0 st.processes with
      ⟨k, _, hk2, hk3, hk4, hk5⟩ | ⟨hall, _⟩
    · refine ⟨k, by omega, hk3, fun j hj => hk4 j (Nat.zero_le j) hj, ?_, ?_, hk5⟩
      · simp only [hk5]
        rw [List.getD_eq_getElem?_getD, List.getElem?_set_self (by omega)]
        rfl
      · intro j hj
        simp only [hk5]
        rw [List.getD_eq_getElem?_getD, List.getD_eq_getElem?_getD,
          List.getElem?_set_ne (Ne.symm hj)]
    · exact absurd hz0 (hall k0 (Nat.zero_le k0) (by omega))
  · intro hfull
    rcases registerLoop_spec env.forkRet MAX_PROCESSES 0 st.processes with
      ⟨k, _, hk2, hk3, _, _⟩ | ⟨_, heq⟩
    · exact absurd hk3 (hfull k (by omega))
    · cases st
      simp only at heq
      simp only [heq]

/-- Witness for C2: the first background job of a fresh shell goes to slot 0. -/
theorem background_launch_uses_first_empty_slot_witness :
    ∃ st2 : ShellState,
      executeCommand { command_line.calloc with is_bg := true } ShellState.initial
          { home := none, chdirOk := fun _ => false, forkRet := 4242, waitStatus := 0,
            openOk := fun _ _ => true, execOk := fun _ => true } =
        ExecResult.parent (Outcome.returns st2
          [Event.fork 4242, Event.printf "background pid is %d\n" [4242]])
      ∧ st2.processes.length = MAX_PROCESSES :=
  (background_launch_uses_first_empty_slot { command_line.calloc with is_bg := true }
    ShellState.initial
    { home := none, chdirOk := fun _ => false, forkRet := 4242, waitStatus := 0,
      openOk := fun _ _ => true, execOk := fun _ => true }
    (by simp [ShellState.initial]) rfl rfl (by decide)).imp
    (fun _ h => ⟨h.1, h.2.1⟩)

/-! ## Foreground or background -/

/-- C1: for a spawned child (`fork` answered a pid), `executeCommand` announces
the pid as a background job, does not wait and leaves the last exit status alone
exactly when `is_bg` is set and `foregroundState` is 0, and then the pid is put
in the job table whenever a slot is empty; in every other case it waits for
that child with a blocking `waitpid`, stores the status read as the last exit
status and leaves the job table alone. -/
theorem executeCommand_background_iff (cmd : command_line) (st : ShellState) (env : Env)
    (hlen : st.processes.length = MAX_PROCESSES) (hpid : 0 < env.forkRet) :
    ∃ (st2 : ShellState) (trace : List Event),
      executeCommand cmd st env = ExecResult.parent (Outcome.returns st2 trace)
      ∧ (Event.printf "background pid is %d\n" [env.forkRet] ∈ trace ↔
          (cmd.is_bg = true ∧ st.foregroundState = 0))
      ∧ ((∃ options status, Event.waitpid env.forkRet options status ∈ trace) ↔
          ¬ (cmd.is_bg = true ∧ st.foregroundState = 0))
      ∧ ((cmd.is_bg = true ∧ st.foregroundState = 0) →
          (∀ pid options status, Event.waitpid pid options status ∉ trace)
          ∧ st2.exitStatus = st.exitStatus
          ∧ ((∃ k, k < MAX_PROCESSES ∧ st.processes.getD k 0 = 0) →
              env.forkRet ∈ st2.processes))
      ∧ (¬ (cmd.is_bg = true ∧ st.foregroundState = 0) →
          Event.waitpid env.forkRet 0 env.waitStatus ∈ trace
          ∧ st2.exitStatus = env.waitStatus
          ∧ st2.processes = st.processes) := by
  have h1 : env.forkRet ≠ -1 := by omega
  have h0 : env.forkRet ≠ 0 := by omega
  by_cases hb : cmd.is_bg = true ∧ st.foregroundState = 0
  · refine ⟨{ st with processes := registerLoop env.forkRet MAX_PROCESSES 0 st.processes },
      [Event.fork env.forkRet, Event.printf "background pid is %d\n" [env.forkRet]],
      ?_, ?_, ?_, ?_, ?_⟩
    · simp [executeCommand, hb, h1, h0]
    · simp [hb]
    · simp [hb]
    · intro _
      refine ⟨by simp, rfl, ?_⟩
      rintro ⟨k0, hk0, hz0⟩
      rcases registerLoop_spec env.forkRet MAX_PROCESSES 0 st.processes with
        ⟨k, _, hk2, _, _, hk5⟩ | ⟨hall, _⟩
      · simp only [hk5]
        have hk : k < st.processes.length := by omega
        exact List.mem_iff_getElem.mpr
          ⟨k, by rw [List.length_set]; exact hk, by simp⟩
      · exact absurd hz0 (hall k0 (Nat.zero_le k0) (by omega))
    · intro hn
      exact absurd hb hn
  · refine ⟨{ st with exitStatus := env.waitStatus },
      [Event.fork env.forkRet, Event.waitpid env.forkRet 0 env.waitStatus] ++
        (if WIFSIGNALED env.waitStatus then
          [Event.printf "terminated by signal %d\n" [WTERMSIG env.waitStatus]]
        else []),
      ?_, ?_, ?_, ?_, ?_⟩
    · simp only [executeCommand, hb, h1, h0]
      simp
    · simp only [hb, iff_false]
      intro hmem
      by_cases hs : WIFSIGNALED env.waitStatus = true <;> simp [hs] at hmem
    · simp only [hb, not_false_eq_true, iff_true]
      exact ⟨0, env.waitStatus, by simp⟩
    · intro hyes
      exact absurd hyes hb
    · intro _
      exact ⟨by simp, rfl, rfl⟩

/-- Witness for C1: `sleep 5 &` typed in foreground-only mode is waited for. -/
theorem executeCommand_background_iff_witness :
    ShellState.initial.processes.length = MAX_PROCESSES ∧ (0 : Int) < 4242 ∧
    ∃ (st2 : ShellState) (trace : List Event),
      executeCommand { command_line.calloc with is_bg := true }
          { ShellState.initial with foregroundState := 1 }
          { home := none, chdirOk := fun _ => false, forkRet := 4242, waitStatus := 256,
            openOk := fun _ _ => true, execOk := fun _ => true } =
        ExecResult.parent (Outcome.returns st2 trace)
      ∧ st2.exitStatus = 256 :=
  ⟨by simp [ShellState.initial], by decide,
    (executeCommand_background_iff { command_line.calloc with is_bg := true }
      { ShellState.initial with foregroundState := 1 }
      { home := none, chdirOk := fun _ => false, forkRet := 4242, waitStatus := 256,
        openOk := fun _ _ => true, execOk := fun _ => true }
      (by simp [ShellState.initial]) (by decide)).imp
      (fun _ h => h.imp (fun _ h2 => ⟨h2.1, (h2.2.2.2.2 (by decide)).2.1⟩))⟩

/-! ## `checkBackgroundProcesses` -/

/-- The loop of `checkBackgroundProcesses` over the slots `i .. i + n - 1`: what
it appends to the output, and the table it leaves. -/
theorem checkLoop_spec (waitpid : Nat → Int × Int) :
    ∀ (n i : Nat) (processes : List Int) (out : List Event),
      (checkLoop waitpid n i processes out).2 =
          out ++ ((List.range' i n).map (fun j =>
            if processes.getD j 0 ≠ 0 ∧ 0 < (waitpid j).1
              then completionReport (waitpid j).1 (waitpid j).2 else [])).flatten
      ∧ (checkLoop waitpid n i processes out).1.length = processes.length
      ∧ ∀ j, (checkLoop waitpid n i processes out).1.getD j 0 =
          if i ≤ j ∧ j < i + n ∧ processes.getD j 0 ≠ 0 ∧ 0 < (waitpid j).1
            then 0 else processes.getD j 0 := by
  intro n
  induction n with
  | zero =>
    intro i processes out
    refine ⟨by simp [checkLoop], by simp [checkLoop], ?_⟩
    intro j
    have : ¬ (i ≤ j ∧ j < i + 0 ∧ processes.getD j 0 ≠ 0 ∧ 0 < (waitpid j).1) := by
      rintro ⟨h1, h2, _⟩; omega
    rw [if_neg this]; rfl
  | succ n ih =>
    intro i processes out
    by_cases hfound : processes.getD i 0 ≠ 0 ∧ 0 < (waitpid i).1
    · have hstep : checkLoop waitpid (n + 1) i processes out =
          checkLoop waitpid n (i + 1) (processes.set i 0)
            (out ++ completionReport (waitpid i).1 (waitpid i).2) := by
        rw [checkLoop, if_pos hfound.1]
        simp only [if_pos hfound.2]
      obtain ⟨ih1, ih2, ih3⟩ := ih (i + 1) (processes.set i 0)
        (out ++ completionReport (waitpid i).1 (waitpid i).2)
      have hother : ∀ j, j ≠ i → (processes.set i 0).getD j 0 = processes.getD j 0 := by
        intro j hj
        rw [List.getD_eq_getElem?_getD, List.getD_eq_getElem?_getD,
          List.getElem?_set_ne (Ne.symm hj)]
      rw [hstep]
      refine ⟨?_, ?_, ?_⟩
      · rw [ih1, List.range'_succ, List.map_cons, List.flatten_cons, if_pos hfound,
          List.append_assoc]
        congr 2
        apply congrArg
        apply List.map_congr_left
        intro j hj
        have hj2 : j ≠ i := by
          have := (List.mem_range'_1.mp hj).1
          omega
        rw [hother j hj2]
      · rw [ih2, List.length_set]
      · intro j
        rw [ih3 j]
        by_cases hji : j = i
        · subst hji
          have h1 : ¬ (j + 1 ≤ j ∧ j < j + 1 + n ∧ (processes.set j 0).getD j 0 ≠ 0 ∧
              0 < (waitpid j).1) := by
            rintro ⟨h, _⟩; omega
          have h2 : j ≤ j ∧ j < j + (n + 1) ∧ processes.getD j 0 ≠ 0 ∧ 0 < (waitpid j).1 :=
            ⟨le_refl j, by omega, hfound.1, hfound.2⟩
          rw [if_neg h1, if_pos h2]
          by_cases hlt : j < processes.length
          · rw [List.getD_eq_getElem?_getD, List.getElem?_set_self hlt]
            rfl
          · exfalso
            apply hfound.1
            rw [List.getD_eq_getElem?_getD, List.getElem?_eq_none (by omega)]
            rfl
        · rw [hother j hji]
          by_cases hc : i ≤ j ∧ j < i + (n + 1) ∧ processes.getD j 0 ≠ 0 ∧ 0 < (waitpid j).1
          · have hc2 : i + 1 ≤ j ∧ j < i + 1 + n ∧ processes.getD j 0 ≠ 0 ∧
                0 < (waitpid j).1 := ⟨by omega, by omega, hc.2.2.1, hc.2.2.2⟩
            rw [if_pos hc, if_pos hc2]
          · have hc2 : ¬ (i + 1 ≤ j ∧ j < i + 1 + n ∧ processes.getD j 0 ≠ 0 ∧
                0 < (waitpid j).1) := by
              rintro ⟨h1, h2, h3, h4⟩
              exact hc ⟨by omega, by omega, h3, h4⟩
            rw [if_neg hc, if_neg hc2]
    · have hstep : checkLoop waitpid (n + 1) i processes out =
          checkLoop waitpid n (i + 1) processes out := by
        rw [checkLoop]
        by_cases h0 : processes.getD i 0 ≠ 0
        · have hp : ¬ 0 < (waitpid i).1 := fun h => hfound ⟨h0, h⟩
          rw [if_pos h0]
          simp only [if_neg hp]
        · rw [if_neg h0]
      obtain ⟨ih1, ih2, ih3⟩ := ih (i + 1) processes out
      rw [hstep]
      refine ⟨?_, ih2, ?_⟩
      · rw [ih1, List.range'_succ, List.map_cons, List.flatten_cons, if_neg hfound,
          List.nil_append]
      · intro j
        rw [ih3 j]
        by_cases hji : j = i
        · subst hji
          have h1 : ¬ (j + 1 ≤ j ∧ j < j + 1 + n ∧ processes.getD j 0 ≠ 0 ∧
              0 < (waitpid j).1) := by
            rintro ⟨h, _⟩; omega
          have h2 : ¬ (j ≤ j ∧ j < j + (n + 1) ∧ processes.getD j 0 ≠ 0 ∧
              0 < (waitpid j).1) := by
            rintro ⟨_, _, h3, h4⟩
            exact hfound ⟨h3, h4⟩
          rw [if_neg h1, if_neg h2]
        · by_cases hc : i ≤ j ∧ j < i + (n + 1) ∧ processes.getD j 0 ≠ 0 ∧ 0 < (waitpid j).1
          · have hc2 : i + 1 ≤ j ∧ j < i + 1 + n ∧ processes.getD j 0 ≠ 0 ∧
                0 < (waitpid j).1 := ⟨by omega, by omega, hc.2.2.1, hc.2.2.2⟩
            rw [if_pos hc, if_pos hc2]
          · have hc2 : ¬ (i + 1 ≤ j ∧ j < i + 1 + n ∧ processes.getD j 0 ≠ 0 ∧
                0 < (waitpid j).1) := by
              rintro ⟨h1, h2, h3, h4⟩
              exact hc ⟨by omega, by omega, h3, h4⟩
            rw [if_neg hc, if_neg hc2]

theorem flatten_map_eq_filterMap {α β : Type} (f : α → List β) (g : α → Option β) :
    ∀ (l : List α), (∀ a ∈ l, f a = (g a).toList) → (l.map f).flatten = l.filterMap g := by
  intro l
  induction l with
  | nil => intro _; rfl
  | cons a l ih =>
    intro h
    have ha := h a (List.mem_cons_self a l)
    have hl := ih (fun b hb => h b (List.mem_cons_of_mem a hb))
    rw [List.map_cons, List.flatten_cons, ha, hl]
    cases hg : g a with
    | none => simp [List.filterMap_cons, hg]
    | some b => simp [List.filterMap_cons, hg]

theorem mem_of_getD_ne_zero (l : List Int) (j : Nat) (h : l.getD j 0 ≠ 0) :
    l.getD j 0 ∈ l := by
  by_cases hj : j < l.length
  · rw [List.getD_eq_getElem?_getD, List.getElem?_eq_getElem hj]
    exact List.getElem_mem hj
  · exfalso
    apply h
    rw [List.getD_eq_getElem?_getD, List.getElem?_eq_none (by omega)]
    rfl

theorem mem_completionReport (pid status : Int) (e : Event)
    (h : e ∈ completionReport pid status) :
    ∃ format n, e = Event.printf format [pid, n] := by
  unfold completionReport at h
  split at h
  · exact ⟨_, _, List.mem_singleton.mp h⟩
  · split at h
    · exact ⟨_, _, List.mem_singleton.mp h⟩
    · exact absurd h (List.not_mem_nil e)

/-- C3: one run of `checkBackgroundProcesses` over a 200-slot table, whatever the
non-blocking `waitpid` calls answer (a positive answer being the pid asked for,
with the status word of an exit or of a kill): it prints one completion line,
of the kind given by the status word, for each occupied slot whose process was
returned by `waitpid`, in increasing slot order, and nothing else; it empties
exactly those slots and leaves every other slot as it was, so that an occupied
slot stays occupied until its process has been reported.  When the pids in
the table are distinct, a reported pid is no longer in the table afterwards,
and a run never prints a line for a pid that is not in the table it starts
from, hence no later run reports that pid again. -/
theorem checkBackgroundProcesses_reports_once (waitpid : Nat → Int × Int)
    (processes : List Int) (hlen : processes.length = MAX_PROCESSES)
    (hos : ∀ i, processes.getD i 0 ≠ 0 → 0 < (waitpid i).1 →
      (waitpid i).1 = processes.getD i 0 ∧
        (WIFEXITED (waitpid i).2 = true ∨ WIFSIGNALED (waitpid i).2 = true)) :
    (checkBackgroundProcesses waitpid processes).2 =
        (List.range MAX_PROCESSES).filterMap (fun i =>
          if processes.getD i 0 ≠ 0 ∧ 0 < (waitpid i).1 then
            some (if WIFEXITED (waitpid i).2 then
                Event.printf "background pid %d is done: exit value %d\n"
                  [processes.getD i 0, WEXITSTATUS (waitpid i).2]
              else
                Event.printf "background pid %d is done: terminated by signal %d\n"
                  [processes.getD i 0, WTERMSIG (waitpid i).2])
          else none)
    ∧ (checkBackgroundProcesses waitpid processes).1.length = MAX_PROCESSES
    ∧ (∀ i, (checkBackgroundProcesses waitpid processes).1.getD i 0 =
        if processes.getD i 0 ≠ 0 ∧ 0 < (waitpid i).1 then 0 else processes.getD i 0)
    ∧ ((∀ i j, processes.getD i 0 ≠ 0 → processes.getD i 0 = processes.getD j 0 → i = j) →
        ∀ i, processes.getD i 0 ≠ 0 → 0 < (waitpid i).1 →
          processes.getD i 0 ∉ (checkBackgroundProcesses waitpid processes).1)
    ∧ (∀ (later : List Int) (waitpid2 : Nat → Int × Int),
        (∀ i, later.getD i 0 ≠ 0 → 0 < (waitpid2 i).1 → (waitpid2 i).1 = later.getD i 0) →
        ∀ pid, pid ∉ later → ∀ format args,
          Event.printf format (pid :: args) ∉ (checkBackgroundProcesses waitpid2 later).2) := by
  obtain ⟨h1, h2, h3⟩ := checkLoop_spec waitpid MAX_PROCESSES 0 processes []
  have hslot : ∀ i, (checkBackgroundProcesses waitpid processes).1.getD i 0 =
      if processes.getD i 0 ≠ 0 ∧ 0 < (waitpid i).1 then 0 else processes.getD i 0 := by
    intro i
    rw [checkBackgroundProcesses, h3 i]
    by_cases hc : processes.getD i 0 ≠ 0 ∧ 0 < (waitpid i).1
    · have hi : i < MAX_PROCESSES := by
        by_contra hge
        apply hc.1
        rw [List.getD_eq_getElem?_getD, List.getElem?_eq_none (by omega)]
        rfl
      rw [if_pos hc, if_pos ⟨Nat.zero_le i, by omega, hc.1, hc.2⟩]
    · have hc2 : ¬ (0 ≤ i ∧ i < 0 + MAX_PROCESSES ∧ processes.getD i 0 ≠ 0 ∧
          0 < (waitpid i).1) := fun h => hc ⟨h.2.2.1, h.2.2.2⟩
      rw [if_neg hc, if_neg hc2]
  refine ⟨?_, ?_, hslot, ?_, ?_⟩
  · rw [checkBackgroundProcesses, h1, List.nil_append, List.range_eq_range']
    apply flatten_map_eq_filterMap
    intro i _
    by_cases hc : processes.getD i 0 ≠ 0 ∧ 0 < (waitpid i).1
    · obtain ⟨hpid, hkind⟩ := hos i hc.1 hc.2
      rw [if_pos hc, if_pos hc, hpid]
      unfold completionReport
      by_cases he : WIFEXITED (waitpid i).2 = true
      · rw [if_pos he, if_pos he]; rfl
      · have hs : WIFSIGNALED (waitpid i).2 = true := hkind.resolve_left he
        rw [if_neg he, if_neg he, if_pos hs]; rfl
    · rw [if_neg hc, if_neg hc]; rfl
  · rw [checkBackgroundProcesses, h2, hlen]
  · intro hdistinct i hocc hret hmem
    obtain ⟨j, hj, hjeq⟩ := List.mem_iff_getElem.mp hmem
    have hget : (checkBackgroundProcesses waitpid processes).1.getD j 0 =
        processes.getD i 0 := by
      rw [List.getD_eq_getElem?_getD, List.getElem?_eq_getElem hj, hjeq]
      rfl
    rw [hslot j] at hget
    by_cases hc : processes.getD j 0 ≠ 0 ∧ 0 < (waitpid j).1
    · rw [if_pos hc] at hget
      exact hocc hget.symm
    · rw [if_neg hc] at hget
      have hij : i = j := hdistinct i j hocc hget.symm
      subst hij
      exact hc ⟨hocc, hret⟩
  · intro later waitpid2 hos2 pid hpid format args hmem
    obtain ⟨g1, _, _⟩ := checkLoop_spec waitpid2 MAX_PROCESSES 0 later []
    rw [checkBackgroundProcesses, g1, List.nil_append, List.mem_flatten] at hmem
    obtain ⟨l, hl, hel⟩ := hmem
    obtain ⟨j, _, hjl⟩ := List.mem_map.mp hl
    subst hjl
    by_cases hc : later.getD j 0 ≠ 0 ∧ 0 < (waitpid2 j).1
    · rw [if_pos hc] at hel
      obtain ⟨f, n, hfn⟩ := mem_completionReport _ _ _ hel
      have hp : pid = (waitpid2 j).1 := by
        injection hfn with _ hargs
        injection hargs
      rw [hos2 j hc.1 hc.2] at hp
      exact hpid (hp ▸ mem_of_getD_ne_zero later j hc.1)
    · rw [if_neg hc] at hel
      exact absurd hel (List.not_mem_nil _)

/-- Witness for C3: jobs 41 and 42 are in slots 0 and 1, and only job 41 has
ended (with exit code 0) when the table is polled. -/
theorem checkBackgroundProcesses_reports_once_witness :
    ((ShellState.initial.processes.set 0 41).set 1 42).length = MAX_PROCESSES
    ∧ (checkBackgroundProcesses (fun i => if i = 0 then (41, 0) else (0, 0))
        ((ShellState.initial.processes.set 0 41).set 1 42)).2 =
      [Event.printf "background pid %d is done: exit value %d\n" [41, 0]]
    ∧ render (Event.printf "background pid %d is done: exit value %d\n" [41, 0]) =
      "background pid 41 is done: exit value 0\n"
    ∧ (checkBackgroundProcesses (fun i => if i = 0 then (41, 0) else (0, 0))
        ((ShellState.initial.processes.set 0 41).set 1 42)).1.getD 0 0 = 0
    ∧ (checkBackgroundProcesses (fun i => if i = 0 then (41, 0) else (0, 0))
        ((ShellState.initial.processes.set 0 41).set 1 42)).1.getD 1 0 = 42 :=
  have h := checkBackgroundProcesses_reports_once
    (fun i => if i = 0 then (41, 0) else (0, 0))
    ((ShellState.initial.processes.set 0 41).set 1 42)
    (by simp [ShellState.initial])
    (by
      intro i hocc hret
      by_cases hi : i = 0
      · subst hi
        exact ⟨by decide, Or.inl (by decide)⟩
      · simp [hi] at hret)
  ⟨by simp [ShellState.initial], h.1.trans (by decide), by decide,
    (h.2.2.1 0).trans (by decide),
    (h.2.2.1 1).trans (by decide)⟩

/-! ## `ioRedirection` -/

/-- C7: when every `open` succeeds, `ioRedirection` returns with the child's
standard input on the explicit input path (read-only) if there is one, else on
the null device if the child is in the background, else where it was (the
shell's standard input); and with its standard output on the explicit output
path (write-only, create, truncate, mode 0640) if there is one, else on the
null device if background, else where it was.  The input choice reads only
`input_file` and the output choice only `output_file`. -/
theorem ioRedirection_targets (cmd : command_line) (bgProcess : Int) (env : Env)
    (c : ChildState) (hopen : ∀ path flags, env.openOk path flags = true) :
    ∃ trace,
      ioRedirection cmd bgProcess env c =
        Outcome.returns
          { c with
            stdin :=
              match cmd.input_file with
              | some path => FdTarget.file path O_RDONLY none
              | none =>
                if bgProcess ≠ 0 then FdTarget.file "/dev/null" O_RDONLY none else c.stdin
            stdout :=
              match cmd.output_file with
              | some path => FdTarget.file path (O_WRONLY ||| O_CREAT ||| O_TRUNC) (some 0o640)
              | none =>
                if bgProcess ≠ 0 then FdTarget.file "/dev/null" O_WRONLY none else c.stdout }
          trace
      ∧ (∀ e ∈ trace, ∃ path flags mode, e = Event.openFile path flags mode true) := by
  cases c with
  | mk sigint sigtstp stdin stdout =>
    rcases hin : cmd.input_file with _ | inPath <;>
    rcases hout : cmd.output_file with _ | outPath <;>
    by_cases hbg : bgProcess = 0 <;>
    simp [ioRedirection, ioRedirection_input, ioRedirection_output, Outcome.andThen,
      hin, hout, hbg, hopen, DEV_NULL, MODE_0640]

/-- Witness for C7: `sort < in.txt &`, every `open` succeeding. -/
theorem ioRedirection_targets_witness :
    ∃ trace,
      ioRedirection { command_line.calloc with input_file := some "in.txt", is_bg := true } 1
          { home := none, chdirOk := fun _ => false, forkRet := 0, waitStatus := 0,
            openOk := fun _ _ => true, execOk := fun _ => true }
          ChildState.afterFork =
        Outcome.returns
          { ChildState.afterFork with
            stdin := FdTarget.file "in.txt" O_RDONLY none
            stdout := FdTarget.file "/dev/null" O_WRONLY none }
          trace :=
  (ioRedirection_targets
    { command_line.calloc with input_file := some "in.txt", is_bg := true } 1
    { home := none, chdirOk := fun _ => false, forkRet := 0, waitStatus := 0,
      openOk := fun _ _ => true, execOk := fun _ => true }
    ChildState.afterFork (fun _ _ => rfl)).imp (fun _ h => h.1)

/-! ## `parse_input` -/

theorem fgetsChars_manyArgs : ∀ (n m : Nat), 2 * n + 1 ≤ m →
    fgetsChars m (manyArgs n) = manyArgs n := by
  intro n
  induction n with
  | zero =>
    intro m hm
    obtain ⟨k, rfl⟩ : ∃ k, m = k + 1 := ⟨m - 1, by omega⟩
    rfl
  | succ n ih =>
    intro m hm
    obtain ⟨k, rfl⟩ : ∃ k, m = k + 2 := ⟨m - 2, by omega⟩
    have hk := ih k (by omega)
    simp only [manyArgs, List.replicate_succ, List.flatten_cons, List.cons_append,
      List.nil_append] at hk ⊢
    rw [fgetsChars, if_neg (by decide), fgetsChars, if_neg (by decide), hk]

theorem strtokAll_manyArgs : ∀ (n : Nat),
    strtokAll (manyArgs n) [] = List.replicate n "a" := by
  intro n
  induction n with
  | zero => rfl
  | succ n ih =>
    simp only [manyArgs, List.replicate_succ, List.flatten_cons, List.cons_append,
      List.nil_append] at ih ⊢
    rw [strtokAll, if_neg (by decide), strtokAll, if_pos (by decide), if_neg (by decide), ih]
    rfl

theorem parseTokens_word (rest : List String) (cmd : command_line) :
    parseTokens ("a" :: rest) cmd =
      if cmd.argc < MAX_ARGS + 1 then
        parseTokens rest
          { cmd with argv := cmd.argv.set cmd.argc (some "a"), argc := cmd.argc + 1 }
      else none := by
  rw [parseTokens.eq_def]
  simp

theorem calloc_argv_length : command_line.calloc.argv.length = MAX_ARGS + 1 := by
  simp [command_line.calloc]

theorem parseTokens_words : ∀ (n : Nat) (cmd : command_line),
    cmd.argc + n ≤ MAX_ARGS + 1 →
    ∃ cmd2, parseTokens (List.replicate n "a") cmd = some cmd2 ∧
      cmd2.argc = cmd.argc + n ∧ cmd2.argv.length = cmd.argv.length ∧
      ∀ j, cmd2.argv.getD j none =
        if cmd.argc ≤ j ∧ j < cmd.argc + n ∧ j < cmd.argv.length then some "a"
        else cmd.argv.getD j none := by
  intro n
  induction n with
  | zero =>
    intro cmd _
    refine ⟨cmd, rfl, rfl, rfl, ?_⟩
    intro j
    rw [if_neg]
    rintro ⟨h1, h2, _⟩
    omega
  | succ n ih =>
    intro cmd hle
    have hlt : cmd.argc < MAX_ARGS + 1 := by omega
    obtain ⟨cmd2, h1, h2, h3, h4⟩ := ih
      { cmd with argv := cmd.argv.set cmd.argc (some "a"), argc := cmd.argc + 1 }
      (by simp only; omega)
    refine ⟨cmd2, ?_, ?_, ?_, ?_⟩
    · rw [List.replicate_succ, parseTokens_word, if_pos hlt]
      exact h1
    · rw [h2]; simp only; omega
    · rw [h3]; simp only [List.length_set]
    · intro j
      rw [h4 j]
      simp only [List.length_set]
      by_cases hj : j = cmd.argc
      · subst hj
        by_cases hlen : cmd.argc < cmd.argv.length
        · rw [if_neg (by omega), if_pos ⟨le_refl _, by omega, hlen⟩,
            List.getD_eq_getElem?_getD, List.getElem?_set_self hlen]
          rfl
        · rw [if_neg (by omega), if_neg (by omega), List.getD_eq_getElem?_getD,
            List.getD_eq_getElem?_getD, List.getElem?_eq_none (by simp; omega),
            List.getElem?_eq_none (by omega)]
      · rw [List.getD_eq_getElem?_getD (l := cmd.argv.set cmd.argc (some "a")),
          List.getElem?_set_ne (Ne.symm hj), ← List.getD_eq_getElem?_getD]
        by_cases hc : cmd.argc ≤ j ∧ j < cmd.argc + (n + 1) ∧ j < cmd.argv.length
        · rw [if_pos hc, if_pos ⟨by omega, by omega, hc.2.2⟩]
        · rw [if_neg hc, if_neg]
          rintro ⟨a, b, c⟩
          exact hc ⟨by omega, by omega, c⟩

theorem parse_input_manyArgs (n : Nat) (h1 : 0 < n) (h2 : 2 * n + 1 ≤ INPUT_LENGTH - 1) :
    parse_input (manyArgs n) = parseTokens (List.replicate n "a") command_line.calloc := by
  obtain ⟨k, rfl⟩ : ∃ k, n = k + 1 := ⟨n - 1, by omega⟩
  have hf : fgets INPUT_LENGTH (manyArgs (k + 1)) = some (manyArgs (k + 1)) := by
    rw [fgets, fgetsChars_manyArgs (k + 1) _ h2]
    rfl
  rw [parse_input, hf]
  simp only
  rw [if_neg, strtokAll_manyArgs]
  simp [manyArgs, List.replicate_succ]

/-- C10 (the code at the failing input): the line of 513 one-letter words is
1027 characters long, so `fgets` reads it whole, and `parse_input` returns a
command with `argc = 513`, more than `MAX_ARGS`; all 513 entries of `argv` hold
an argument, so no entry of the array is `NULL` after the last argument.  One
word more and the store to `argv[513]` is outside the array. -/
theorem parse_input_exceeds_MAX_ARGS :
    (manyArgs 513).length = 1027 ∧ (manyArgs 513).length ≤ INPUT_LENGTH - 1
    ∧ (∃ cmd, parse_input (manyArgs 513) = some cmd ∧ cmd.argc = 513
        ∧ MAX_ARGS < cmd.argc ∧ cmd.argv.length = MAX_ARGS + 1
        ∧ (∀ j, j < MAX_ARGS + 1 → cmd.argv.getD j none = some "a")
        ∧ argvUntilNull cmd.argv = none)
    ∧ parse_input (manyArgs 514) = none := by
  have hlen : ∀ n, (manyArgs n).length = 2 * n + 1 := by
    intro n
    induction n with
    | zero => rfl
    | succ n ih =>
      simp only [manyArgs, List.replicate_succ, List.flatten_cons, List.cons_append,
        List.nil_append, List.length_cons] at ih ⊢
      omega
  refine ⟨hlen 513, by rw [hlen 513]; decide, ?_, ?_⟩
  · obtain ⟨cmd, h1, h2, h3, h4⟩ := parseTokens_words 513 command_line.calloc (by decide)
    have hM : MAX_ARGS = 512 := rfl
    have hc0 : command_line.calloc.argc = 0 := rfl
    have hcl := calloc_argv_length
    have hargv : ∀ j, j < MAX_ARGS + 1 → cmd.argv.getD j none = some "a" := by
      intro j hj
      rw [h4 j, if_pos]
      exact ⟨by omega, by omega, by omega⟩
    have hl : cmd.argv.length = MAX_ARGS + 1 := by
      rw [h3, hcl]
    refine ⟨cmd, ?_, by omega, by omega, hl, hargv, ?_⟩
    · rw [parse_input_manyArgs 513 (by decide) (by decide)]
      exact h1
    · have hall : ∀ (l : List (Option String)),
          (∀ j, j < l.length → l.getD j none = some "a") → argvUntilNull l = none := by
        intro l
        induction l with
        | nil => intro _; rfl
        | cons x xs ih =>
          intro hx
          have h0 := hx 0 (by simp)
          simp only [List.getD_cons_zero] at h0
          subst h0
          rw [argvUntilNull, ih (fun j hj => by
            have := hx (j + 1) (by simp; omega)
            simpa using this)]
          rfl
      exact hall cmd.argv (fun j hj => hargv j (by omega))
  · rw [parse_input_manyArgs 514 (by decide) (by decide)]
    obtain ⟨cmd, h1, h2, _, _⟩ := parseTokens_words 513 command_line.calloc (by decide)
    have hM : MAX_ARGS = 512 := rfl
    have hc0 : command_line.calloc.argc = 0 := rfl
    have hsplit : List.replicate 514 "a" = List.replicate 513 "a" ++ ["a"] := by
      rw [← List.replicate_succ']
    have happ : ∀ (n : Nat) (c c2 : command_line) (rest : List String),
        parseTokens (List.replicate n "a") c = some c2 →
        parseTokens (List.replicate n "a" ++ rest) c = parseTokens rest c2 := by
      intro n
      induction n with
      | zero =>
        intro c c2 rest hc
        simp only [List.replicate_zero, parseTokens, Option.some.injEq] at hc
        subst hc
        rfl
      | succ n ih =>
        intro c c2 rest hc
        rw [List.replicate_succ, parseTokens_word] at hc
        rw [List.replicate_succ, List.cons_append, parseTokens_word]
        by_cases hlt : c.argc < MAX_ARGS + 1
        · rw [if_pos hlt] at hc ⊢
          exact ih _ c2 rest hc
        · rw [if_neg hlt] at hc
          exact absurd hc (by simp)
    rw [hsplit, happ 513 _ cmd ["a"] h1, parseTokens_word, if_neg]
    omega

/-! ## The 256-byte message buffers -/

theorem utf8ByteSize_append (s t : String) :
    (s ++ t).utf8ByteSize = s.utf8ByteSize + t.utf8ByteSize := by
  cases s
  cases t
  show String.utf8ByteSize ⟨_ ++ _⟩ = _
  simp

theorem utf8ByteSize_longName (n : Nat) : (longName n).utf8ByteSize = n := by
  induction n with
  | zero => rfl
  | succ n ih =>
    have h : (longName (n + 1)).utf8ByteSize = (longName n).utf8ByteSize + 1 := by
      simp only [longName, List.replicate_succ, String.utf8ByteSize_mk,
        String.utf8Len_cons]
      rfl
    rw [h, ih]

theorem sprintf256_eq_none (s : String) (h : 256 ≤ s.utf8ByteSize) : sprintf256 s = none := by
  rw [sprintf256, if_neg (by omega)]

theorem sprintf256_eq_some (s : String) (h : s.utf8ByteSize < 256) :
    sprintf256 s = some s := by
  rw [sprintf256, if_pos (by omega)]

theorem twoWords_argv0 (name arg : String) : (twoWords name arg).argv.getD 0 none = some name :=
  rfl

theorem twoWords_argv1 (name arg : String) : (twoWords name arg).argv.getD 1 none = some arg :=
  rfl

/-! ## Built-in commands -/

/-- C5 (the code at the failing input): `cd` followed by a 300-letter name of a
directory that does not exist.  `chdir` fails, and the message
`<path>: no such file or directory` needs 328 bytes and a NUL while
`errorMessage` has 256: `sprintf` writes outside the array, so nothing is
guaranteed about the job table and the last exit status afterwards. -/
theorem cd_long_path_overflows (st : ShellState) (forkRet : Int) :
    (twoWords "cd" (longName 300)).argv.getD 0 none = some "cd"
    ∧ (longName 300 ++ ": no such file or directory\n").utf8ByteSize + 1 = 329
    ∧ dispatch (twoWords "cd" (longName 300)) st (failingEnv forkRet) =
        ExecResult.parent (Outcome.undefined [Event.chdir (some (longName 300)) false]) := by
  have hsz : (longName 300 ++ ": no such file or directory\n").utf8ByteSize = 328 := by
    rw [utf8ByteSize_append, utf8ByteSize_longName]
    rfl
  refine ⟨rfl, by rw [hsz], ?_⟩
  have hargc : (twoWords "cd" (longName 300)).argc ≠ 0 := by decide
  rw [dispatch, if_neg hargc, twoWords_argv0]
  simp only
  rw [if_neg (by decide), if_pos trivial, changeDirectory, twoWords_argv1]
  simp only
  rw [sprintf256_eq_none _ (by omega)]
  rfl

theorem exitCommand_only_kills (processes : List Int) :
    ∀ e ∈ exitCommand processes, ∃ pid, e = Event.kill pid SIGTERM := by
  intro e he
  rw [exitCommand, exitLoop_eq] at he
  obtain ⟨p, _, hp⟩ := List.mem_map.mp he
  exact ⟨p, hp.symm⟩

theorem statusCommand_only_prints (exitStatus : Int) :
    ∀ e ∈ statusCommand exitStatus, ∃ format args, e = Event.printf format args := by
  intro e he
  unfold statusCommand at he
  split at he
  · exact ⟨_, _, List.mem_singleton.mp he⟩
  · split at he
    · exact ⟨_, _, List.mem_singleton.mp he⟩
    · exact absurd he (List.not_mem_nil e)

/-- What holds of the three built-in commands on every input: the dispatch stays
in the shell process, creates no process and ends with the shell state it
started from, unless it is a `cd` whose error message does not fit the 256
bytes of `errorMessage`. -/
theorem builtin_dispatch_frame_or_overflow (cmd : command_line) (st : ShellState)
    (env : Env) (name : String) (hargc : cmd.argc ≠ 0)
    (hname : cmd.argv.getD 0 none = some name)
    (hbuiltin : name = "exit" ∨ name = "cd" ∨ name = "status") :
    (∃ trace,
      (dispatch cmd st env = ExecResult.parent (Outcome.returns st trace) ∨
        dispatch cmd st env = ExecResult.parent (Outcome.exited 0 st trace))
      ∧ ∀ e ∈ trace, ∀ pid, e ≠ Event.fork pid)
    ∨ (name = "cd" ∧ ∃ path, cmd.argv.getD 1 none = some path ∧
        env.chdirOk (some path) = false ∧
        256 ≤ (path ++ ": no such file or directory\n").utf8ByteSize ∧
        dispatch cmd st env =
          ExecResult.parent (Outcome.undefined [Event.chdir (some path) false])) := by
  rcases hbuiltin with h | h | h
  · subst h
    left
    refine ⟨exitCommand st.processes, Or.inr ?_, ?_⟩
    · rw [dispatch, if_neg hargc, hname]
      rfl
    · intro e he pid hfork
      obtain ⟨p, hp⟩ := exitCommand_only_kills _ e he
      rw [hp] at hfork
      exact Event.noConfusion hfork
  · subst h
    have hd : dispatch cmd st env = ExecResult.parent (changeDirectory cmd st env) := by
      rw [dispatch, if_neg hargc, hname]
      rfl
    rw [hd]
    unfold changeDirectory
    rcases harg : cmd.argv.getD 1 none with _ | path
    · exact Or.inl ⟨[Event.chdir env.home (env.chdirOk env.home)], Or.inl rfl, by simp⟩
    · by_cases hok : env.chdirOk (some path) = true
      · refine Or.inl ⟨[Event.chdir (some path) true], Or.inl ?_, by simp⟩
        simp only [hok, if_true]
      · have hfalse : env.chdirOk (some path) = false := by simpa using hok
        by_cases hfit : (path ++ ": no such file or directory\n").utf8ByteSize < 256
        · refine Or.inl ⟨[Event.chdir (some path) false,
            Event.write STDERR_FILENO (path ++ ": no such file or directory\n")],
            Or.inl ?_, by simp⟩
          simp only [hfalse, sprintf256_eq_some _ hfit, Bool.false_eq_true, if_false]
        · refine Or.inr ⟨rfl, path, rfl, hfalse, Nat.le_of_not_lt hfit, ?_⟩
          simp only [hfalse, sprintf256_eq_none _ (Nat.le_of_not_lt hfit),
            Bool.false_eq_true, if_false]
  · subst h
    left
    refine ⟨statusCommand st.exitStatus, Or.inl ?_, ?_⟩
    · rw [dispatch, if_neg hargc, hname]
      rfl
    · intro e he pid hfork
      obtain ⟨f, a, hp⟩ := statusCommand_only_prints _ e he
      rw [hp] at hfork
      exact Event.noConfusion hfork

/-- An instance of `builtin_dispatch_frame_or_overflow`: `cd docs`. -/
theorem builtin_dispatch_frame_or_overflow_witness :
    (∃ trace,
      (dispatch (twoWords "cd" "docs") ShellState.initial (failingEnv 7) =
          ExecResult.parent (Outcome.returns ShellState.initial trace) ∨
        dispatch (twoWords "cd" "docs") ShellState.initial (failingEnv 7) =
          ExecResult.parent (Outcome.exited 0 ShellState.initial trace))
      ∧ ∀ e ∈ trace, ∀ pid, e ≠ Event.fork pid)
    ∨ ("cd" = "cd" ∧ ∃ path, (twoWords "cd" "docs").argv.getD 1 none = some path ∧
        (failingEnv 7).chdirOk (some path) = false ∧
        256 ≤ (path ++ ": no such file or directory\n").utf8ByteSize ∧
        dispatch (twoWords "cd" "docs") ShellState.initial (failingEnv 7) =
          ExecResult.parent (Outcome.undefined [Event.chdir (some path) false])) :=
  builtin_dispatch_frame_or_overflow (twoWords "cd" "docs") ShellState.initial
    (failingEnv 7) "cd" (by decide) rfl (Or.inr (Or.inl rfl))

/-! ## Redirection failures -/

/-- The shell's side of a child that ended with `exit(1)`: the shell goes on;
in the foreground it stores a status word that is a normal exit with code 1 and
leaves the job table alone. -/
theorem launch_of_child_exit_1 (cmd : command_line) (st : ShellState) (env : Env)
    (programStatus : Int) (c : ChildState) (t : List Event) (hpid : 0 < env.forkRet)
    (hchild : childBranch cmd
      (if cmd.is_bg = true ∧ st.foregroundState = 0 then 1 else 0) env =
        Outcome.exited 1 c t) :
    ∃ st2 trace,
      launch cmd st env programStatus = some (ExecResult.parent (Outcome.returns st2 trace))
      ∧ st2.foregroundState = st.foregroundState
      ∧ (¬ (cmd.is_bg = true ∧ st.foregroundState = 0) →
          st2.processes = st.processes
          ∧ st2.exitStatus = W_EXITCODE 1 0
          ∧ WIFEXITED st2.exitStatus = true ∧ WEXITSTATUS st2.exitStatus = 1
          ∧ statusCommand st2.exitStatus = [Event.printf "exit value %d\n" [1]]
          ∧ trace = [Event.fork env.forkRet, Event.waitpid env.forkRet 0 (W_EXITCODE 1 0)]) := by
  have h1 : env.forkRet ≠ -1 := by omega
  have h0 : env.forkRet ≠ 0 := by omega
  have hsig : WIFSIGNALED 256 = false := by decide
  have hw : W_EXITCODE (1 % 256) 0 = 256 := by decide
  by_cases hb : cmd.is_bg = true ∧ st.foregroundState = 0
  · rw [if_pos hb] at hchild
    refine ⟨{ st with processes := registerLoop env.forkRet MAX_PROCESSES 0 st.processes },
      [Event.fork env.forkRet, Event.printf "background pid is %d\n" [env.forkRet]],
      ?_, rfl, fun hn => absurd hb hn⟩
    simp only [launch, if_pos hb, hchild, childWaitStatus, executeCommand, h1, h0]
    simp
  · rw [if_neg hb] at hchild
    have e1 : (256 : Int) = W_EXITCODE 1 0 := by decide
    have e2 : statusCommand 256 = [Event.printf "exit value %d\n" [1]] := by decide
    refine ⟨{ st with exitStatus := 256 },
      [Event.fork env.forkRet, Event.waitpid env.forkRet 0 256], ?_, rfl, fun _ =>
        ⟨rfl, e1, (by decide : WIFEXITED 256 = true),
          (by decide : WEXITSTATUS 256 = 1), e2, by rw [← e1]⟩⟩
    simp only [launch, if_neg hb, hchild, childWaitStatus, executeCommand, h1, h0, hw]
    simp [hsig]

/-- C8: a child whose explicit input path cannot be opened writes
`cannot open <path> for input` to standard error and calls `exit(1)` right
after the failed `open`: it opens nothing else (the output path, if any, is
never opened) and never calls `execvp`.  A child whose input side went well
and whose explicit output path cannot be opened writes
`cannot open <path> for output` and calls `exit(1)`, again without `execvp`.
This holds for a foreground and for a background child and for a path of any
length.  The shell goes on in both cases, and after a foreground command its
last exit status is the normal exit with code 1. -/
theorem unopenable_path_child_exits_1 (cmd : command_line) (st : ShellState) (env : Env)
    (programStatus : Int) (hpid : 0 < env.forkRet) :
    (∀ (bgProcess : Int) (path : String), cmd.input_file = some path →
        env.openOk path O_RDONLY = false →
        childBranch cmd bgProcess env =
          Outcome.exited 1
            { ChildState.afterFork with
              sigint := if bgProcess = 0 then Handler.SIG_DFL else Handler.SIG_IGN
              sigtstp := Handler.SIG_IGN }
            [Event.fork 0,
              Event.sigaction SIGINT (if bgProcess = 0 then Handler.SIG_DFL else Handler.SIG_IGN),
              Event.sigaction SIGTSTP Handler.SIG_IGN,
              Event.openFile path O_RDONLY none false,
              Event.write STDERR_FILENO ("cannot open " ++ path ++ " for input\n")])
    ∧ (∀ (bgProcess : Int) (path : String), cmd.output_file = some path →
        env.openOk path (O_WRONLY ||| O_CREAT ||| O_TRUNC) = false →
        (∀ p, cmd.input_file = some p → env.openOk p O_RDONLY = true) →
        ∃ c, childBranch cmd bgProcess env =
          Outcome.exited 1 c
            ([Event.fork 0,
                Event.sigaction SIGINT
                  (if bgProcess = 0 then Handler.SIG_DFL else Handler.SIG_IGN),
                Event.sigaction SIGTSTP Handler.SIG_IGN] ++
              (match cmd.input_file with
                | some p => [Event.openFile p O_RDONLY none true]
                | none =>
                  if bgProcess ≠ 0 then
                    [Event.openFile "/dev/null" O_RDONLY none (env.openOk "/dev/null" O_RDONLY)]
                  else []) ++
              [Event.openFile path (O_WRONLY ||| O_CREAT ||| O_TRUNC) (some 0o640) false,
                Event.write STDERR_FILENO ("cannot open " ++ path ++ " for output\n")]))
    ∧ (((∃ path, cmd.input_file = some path ∧ env.openOk path O_RDONLY = false) ∨
          (∃ path, cmd.output_file = some path ∧
            env.openOk path (O_WRONLY ||| O_CREAT ||| O_TRUNC) = false ∧
            ∀ p, cmd.input_file = some p → env.openOk p O_RDONLY = true)) →
        ∃ st2 trace,
          launch cmd st env programStatus =
            some (ExecResult.parent (Outcome.returns st2 trace))
          ∧ st2.foregroundState = st.foregroundState
          ∧ (¬ (cmd.is_bg = true ∧ st.foregroundState = 0) →
              st2.processes = st.processes
              ∧ st2.exitStatus = W_EXITCODE 1 0
              ∧ WIFEXITED st2.exitStatus = true ∧ WEXITSTATUS st2.exitStatus = 1
              ∧ statusCommand st2.exitStatus = [Event.printf "exit value %d\n" [1]]
              ∧ trace =
                [Event.fork env.forkRet, Event.waitpid env.forkRet 0 (W_EXITCODE 1 0)])) := by
  have hinput : ∀ (bgProcess : Int) (path : String), cmd.input_file = some path →
      env.openOk path O_RDONLY = false →
      childBranch cmd bgProcess env =
        Outcome.exited 1
          { ChildState.afterFork with
            sigint := if bgProcess = 0 then Handler.SIG_DFL else Handler.SIG_IGN
            sigtstp := Handler.SIG_IGN }
          [Event.fork 0,
            Event.sigaction SIGINT (if bgProcess = 0 then Handler.SIG_DFL else Handler.SIG_IGN),
            Event.sigaction SIGTSTP Handler.SIG_IGN,
            Event.openFile path O_RDONLY none false,
            Event.write STDERR_FILENO ("cannot open " ++ path ++ " for input\n")] := by
    intro bgProcess path hin hfail
    simp [childBranch, ioRedirection, ioRedirection_input, sprintfThenExit, hin, hfail,
      Outcome.andThen]
  have houtput : ∀ (bgProcess : Int) (path : String), cmd.output_file = some path →
      env.openOk path (O_WRONLY ||| O_CREAT ||| O_TRUNC) = false →
      (∀ p, cmd.input_file = some p → env.openOk p O_RDONLY = true) →
      ∃ c, childBranch cmd bgProcess env =
        Outcome.exited 1 c
          ([Event.fork 0,
              Event.sigaction SIGINT
                (if bgProcess = 0 then Handler.SIG_DFL else Handler.SIG_IGN),
              Event.sigaction SIGTSTP Handler.SIG_IGN] ++
            (match cmd.input_file with
              | some p => [Event.openFile p O_RDONLY none true]
              | none =>
                if bgProcess ≠ 0 then
                  [Event.openFile "/dev/null" O_RDONLY none (env.openOk "/dev/null" O_RDONLY)]
                else []) ++
            [Event.openFile path (O_WRONLY ||| O_CREAT ||| O_TRUNC) (some 0o640) false,
              Event.write STDERR_FILENO ("cannot open " ++ path ++ " for output\n")]) := by
    intro bgProcess path hout hfail hok
    rcases hin : cmd.input_file with _ | inPath
    · by_cases hbg : bgProcess = 0
      · simp [childBranch, ioRedirection, ioRedirection_input, ioRedirection_output,
          sprintfThenExit, hin, hout, hfail, hbg, Outcome.andThen, MODE_0640]
      · by_cases hnull : env.openOk DEV_NULL O_RDONLY = true
        · have hnull2 : env.openOk "/dev/null" O_RDONLY = true := hnull
          simp [childBranch, ioRedirection, ioRedirection_input, ioRedirection_output,
            sprintfThenExit, hin, hout, hfail, hbg, hnull, hnull2, Outcome.andThen, MODE_0640]
          rfl
        · have hnull1 : env.openOk DEV_NULL O_RDONLY = false := by simpa using hnull
          have hnull2 : env.openOk "/dev/null" O_RDONLY = false := hnull1
          simp [childBranch, ioRedirection, ioRedirection_input, ioRedirection_output,
            sprintfThenExit, hin, hout, hfail, hbg, hnull1, hnull2, Outcome.andThen,
            MODE_0640]
          rfl
    · have hopen := hok inPath hin
      simp [childBranch, ioRedirection, ioRedirection_input, ioRedirection_output,
        sprintfThenExit, hin, hout, hfail, hopen, Outcome.andThen, MODE_0640]
  refine ⟨hinput, houtput, ?_⟩
  rintro (⟨path, hin, hfail⟩ | ⟨path, hout, hfail, hok⟩)
  · exact launch_of_child_exit_1 cmd st env programStatus _ _ hpid (hinput _ path hin hfail)
  · obtain ⟨c, hc⟩ := houtput (if cmd.is_bg = true ∧ st.foregroundState = 0 then 1 else 0)
      path hout hfail hok
    exact launch_of_child_exit_1 cmd st env programStatus _ _ hpid hc

/-- Witness for C8: `cat < path` in the foreground, `path` being a 300-letter
name that cannot be opened: the child writes the 323 bytes of the message and
ends with status 1, and the shell stores the status word 256.  And
`cat > out.txt &` where nothing can be opened: the background child writes the
output message and ends with status 1. -/
theorem unopenable_path_child_exits_1_witness :
    (0 : Int) < (failingEnv 4242).forkRet
    ∧ ("cannot open " ++ longName 300 ++ " for input\n").utf8ByteSize = 323
    ∧ childBranch (catFrom (longName 300)) 0 (failingEnv 4242) =
        Outcome.exited 1
          { ChildState.afterFork with sigint := Handler.SIG_DFL, sigtstp := Handler.SIG_IGN }
          [Event.fork 0, Event.sigaction SIGINT Handler.SIG_DFL,
            Event.sigaction SIGTSTP Handler.SIG_IGN,
            Event.openFile (longName 300) O_RDONLY none false,
            Event.write STDERR_FILENO ("cannot open " ++ longName 300 ++ " for input\n")]
    ∧ (∃ st2 trace,
        launch (catFrom (longName 300)) ShellState.initial (failingEnv 4242) 0 =
          some (ExecResult.parent (Outcome.returns st2 trace))
        ∧ st2.exitStatus = 256)
    ∧ ∃ c,
        childBranch
            { catFrom "nofile.txt" with input_file := none, output_file := some "out.txt",
                                        is_bg := true }
            1 (failingEnv 4242) =
          Outcome.exited 1 c
            [Event.fork 0, Event.sigaction SIGINT Handler.SIG_IGN,
              Event.sigaction SIGTSTP Handler.SIG_IGN,
              Event.openFile "/dev/null" O_RDONLY none false,
              Event.openFile "out.txt" (O_WRONLY ||| O_CREAT ||| O_TRUNC) (some 0o640) false,
              Event.write STDERR_FILENO "cannot open out.txt for output\n"] :=
  have h := unopenable_path_child_exits_1 (catFrom (longName 300)) ShellState.initial
    (failingEnv 4242) 0 (by decide)
  ⟨by decide,
    by rw [utf8ByteSize_append, utf8ByteSize_append, utf8ByteSize_longName]; rfl,
    h.1 0 (longName 300) rfl rfl,
    (h.2.2 (Or.inl ⟨longName 300, rfl, rfl⟩)).imp
      (fun _ h2 => h2.imp (fun _ h3 => ⟨h3.1, (h3.2.2 (by decide)).2.1⟩)),
    (unopenable_path_child_exits_1
      { catFrom "nofile.txt" with input_file := none, output_file := some "out.txt",
                                  is_bg := true }
      ShellState.initial (failingEnv 4242) 0 (by decide)).2.1 1 "out.txt" rfl rfl
      (fun _ hp => Option.noConfusion hp)⟩
end SmallSh
